import Mathlib

/-!
Shallow embedding of the oraclix oracle-mcp resolution-and-cache engine.

Strings of the TypeScript/JavaScript source are modelled as `List Char`
(`Str`); JavaScript `Map` objects as association lists without duplicate
keys; `Date.now()` as an explicit `now : Nat` argument threaded through the
stateful cache operations; a `fetch` call's outcome as an `Except Str _`
input parameter (the error case carries the thrown `Error`'s message).
-/

namespace Oraclix

/-- Strings of the source, modelled as lists of characters. -/
abbrev Str := List Char

/-- Embed a Lean string literal as a `Str`. -/
def str (s : String) : Str := s.data

/-- JS `Map.get`, on an association list: the first binding of the key. -/
def mapGet {β : Type} : List (Str × β) → Str → Option β
  | [], _ => none
  | (k, v) :: rest, key => if k = key then some v else mapGet rest key

/-- JS `Map.set`, on an association list: replace the first binding of the
key, or append a new binding. -/
def mapSet {β : Type} : List (Str × β) → Str → β → List (Str × β)
  | [], key, v => [(key, v)]
  | (k, w) :: rest, key, v =>
    if k = key then (key, v) :: rest else (k, w) :: mapSet rest key v

/-- JS `Map.delete`, on an association list: remove the first binding. -/
def mapDelete {β : Type} : List (Str × β) → Str → List (Str × β)
  | [], _ => []
  | (k, w) :: rest, key => if k = key then rest else (k, w) :: mapDelete rest key

/-- A JS `Map` never holds two bindings of the same key; as an association
list, the keys are pairwise distinct. -/
def keysNodup {β : Type} (m : List (Str × β)) : Prop :=
  (m.map Prod.fst).Nodup

/-- An entry of the `CacheService` map: `{ value, expiry }`
(ORACLE_MCP_TECHNICAL_GUIDE.md, `set`). -/
structure CacheEntry (α : Type) where
  value : α
  expiry : Nat
deriving DecidableEq

/-- The `CacheService` state: the internal `Map` and the default TTL
(constructor default `ttl = 30000`). -/
structure Cache (α : Type) where
  entries : List (Str × CacheEntry α)
  ttl : Nat
deriving DecidableEq

/-- `Array.prototype.join(sep)`: the parts in order with the one-character
separator between consecutive parts. -/
def joinParts (sep : Char) : List Str → Str
  | [] => []
  | [p] => p
  | p :: ps => p ++ sep :: joinParts sep ps

namespace CacheService

/-- `generateKey(...parts) { return parts.join(':'); }` -/
def generateKey (parts : List Str) : Str :=
  joinParts ':' parts

/-- `get(key)`: absent key gives `null`; an entry with `Date.now() > expiry`
is deleted and `null` returned; otherwise the stored value is returned.
The pair also carries the cache state after the lazy eviction. -/
def get {α : Type} (c : Cache α) (now : Nat) (key : Str) : Option α × Cache α :=
  match mapGet c.entries key with
  | none => (none, c)
  | some e =>
    if now > e.expiry then
      (none, { c with entries := mapDelete c.entries key })
    else
      (some e.value, c)

/-- `set(key, value, customTTL)`: `expiry = Date.now() + (customTTL || this.ttl)`;
`customTTL` is `Option Nat` (`none` = the argument was omitted), and the JS
truthiness of `customTTL || this.ttl` sends `0` to the default TTL. -/
def set {α : Type} (c : Cache α) (now : Nat) (key : Str) (value : α)
    (customTTL : Option Nat) : Cache α :=
  let t := match customTTL with
    | some t => if t = 0 then c.ttl else t
    | none => c.ttl
  { c with entries := mapSet c.entries key ⟨value, now + t⟩ }

/-- `size()` — the number of entries of the internal map. -/
def size {α : Type} (c : Cache α) : Nat := c.entries.length

/-- `cleanup()` — delete every entry with `now > expiry`. -/
def cleanup {α : Type} (c : Cache α) (now : Nat) : Cache α :=
  { c with entries := c.entries.filter (fun p => decide (now ≤ p.2.expiry)) }

end CacheService

/-- The canonical token-price record (src/types.ts `TokenPrice`); numeric
fields as integers, optional fields as `Option`. -/
structure TokenPrice where
  symbol : Str
  price : Int
  priceUsd : Int
  timestamp : Nat
  source : Str
  marketCap : Option Int
  volume24h : Option Int
  percentChange24h : Option Int
deriving DecidableEq

/-- The canonical gas-price record (src/types.ts `GasPrice`). -/
structure GasPrice where
  network : Str
  standard : Int
  fast : Int
  instant : Int
  timestamp : Nat
  unit : Str
deriving DecidableEq

/-- The canonical historical-price record (src/types.ts `HistoricalPrice`). -/
structure HistoricalPrice where
  symbol : Str
  date : Str
  price : Int
  priceUsd : Int
  volume : Int
deriving DecidableEq

/-- JS template interpolation of a thrown `Error` value: a string
`Error: <message>`. -/
def jsErrorToString (msg : Str) : Str :=
  str "Error: " ++ msg

/-- The gas-price providers of GasTrackerService's fallback chains. -/
inductive GasAdapter where
  | owlracle
  | rpc
  | ethGasStation
  | etherscan
deriving DecidableEq

/-- The token-price providers of PolygonService's fallback chain. -/
inductive PriceAdapter where
  | coingecko
  | publicApi
deriving DecidableEq

namespace GasTrackerService

/-- `getPolygonGasPrice` (src/services/gas-tracker.ts): try Owlracle, on
failure (warn and) fall back to the RPC call, and if that also fails throw
`Failed to get Polygon gas price: <rpc error>`. The upstream outcomes of
the two adapters are inputs; the second component records which adapters
were invoked, in invocation order. -/
def getPolygonGasPrice {R : Type} (owl rpc : Except Str R) :
    Except Str R × List GasAdapter :=
  match owl with
  | .ok g => (.ok g, [.owlracle])
  | .error _ =>
    match rpc with
    | .ok g => (.ok g, [.owlracle, .rpc])
    | .error e =>
      (.error (str "Failed to get Polygon gas price: " ++ jsErrorToString e),
       [.owlracle, .rpc])

/-- `getEthereumGasPrice`: try ETH Gas Station; on any failure return the
Etherscan alternative, whose own failure propagates unwrapped. -/
def getEthereumGasPrice {R : Type} (gst esc : Except Str R) :
    Except Str R × List GasAdapter :=
  match gst with
  | .ok g => (.ok g, [.ethGasStation])
  | .error _ =>
    match esc with
    | .ok g => (.ok g, [.ethGasStation, .etherscan])
    | .error e => (.error e, [.ethGasStation, .etherscan])

/-- `getGasPrice(network)`: switch on the network name, delegate to the
per-network chain, and wrap any failure as
`Failed to fetch gas price for <network>: <error>`. -/
def getGasPrice {R : Type} (network : Str) (owl rpc gst esc : Except Str R) :
    Except Str R × List GasAdapter :=
  let inner : Except Str R × List GasAdapter :=
    if network = str "polygon" then getPolygonGasPrice owl rpc
    else if network = str "ethereum" then getEthereumGasPrice gst esc
    else (.error (str "Unsupported network: " ++ network), [])
  match inner with
  | (.ok g, tr) => (.ok g, tr)
  | (.error e, tr) =>
    (.error (str "Failed to fetch gas price for " ++ network ++ str ": "
      ++ jsErrorToString e), tr)

/-- `getMultiNetworkGasPrice`: resolve each of the two networks, record a
result only on success and swallow (log) per-network failures; the mapping
is always returned. -/
def getMultiNetworkGasPrice {R : Type} (owl rpc gst esc : Except Str R) :
    List (Str × R) :=
  [str "polygon", str "ethereum"].foldl
    (fun results network =>
      match (getGasPrice network owl rpc gst esc).1 with
      | .ok g => mapSet results network g
      | .error _ => results) []

/-- `checkHealth`: `fetch` the Owlracle endpoint and return `response.ok`;
any thrown exception is caught and becomes `false`. -/
def checkHealth (ping : Except Str Bool) : Bool :=
  match ping with
  | .ok r => r
  | .error _ => false

end GasTrackerService

namespace PolygonService

/-- The `symbolMap` of `getCoinGeckoId` (src/services/polygon.ts). -/
def symbolMap : List (Str × Str) :=
  [ (str "BTC", str "bitcoin"),
    (str "ETH", str "ethereum"),
    (str "MATIC", str "matic-network"),
    (str "POL", str "polygon-ecosystem-token"),
    (str "USDC", str "usd-coin"),
    (str "USDT", str "tether"),
    (str "DAI", str "dai"),
    (str "LINK", str "chainlink"),
    (str "UNI", str "uniswap"),
    (str "AAVE", str "aave") ]

/-- JS `String.prototype.toUpperCase` on the ASCII symbols in scope. -/
def toUpper (s : Str) : Str := s.map Char.toUpper

/-- JS `String.prototype.toLowerCase` on the ASCII symbols in scope. -/
def toLower (s : Str) : Str := s.map Char.toLower

/-- `getCoinGeckoId(symbol)`: upper-case the symbol, look it up in
`symbolMap`, and default to the lower-cased normalized symbol. Called
inside each price adapter, not before the chain. -/
def getCoinGeckoId (symbol : Str) : Str :=
  let normalizedSymbol := toUpper symbol
  match mapGet symbolMap normalizedSymbol with
  | some coinId => coinId
  | none => toLower normalizedSymbol

/-- `getTokenPrice(symbol)`: with a CoinGecko API key, try CoinGecko and
fall back to the public endpoint on failure; without a key go straight to
the public endpoint; a final failure throws
`Failed to fetch token price for <symbol>: <error>`. The upstream outcomes
are inputs; the second component records the adapters invoked, in order. -/
def getTokenPrice {R : Type} (hasApiKey : Bool) (cg pub : Except Str R)
    (symbol : Str) : Except Str R × List PriceAdapter :=
  if hasApiKey then
    match cg with
    | .ok r => (.ok r, [.coingecko])
    | .error _ =>
      match pub with
      | .ok r => (.ok r, [.coingecko, .publicApi])
      | .error e =>
        (.error (str "Failed to fetch token price for " ++ symbol ++ str ": "
          ++ jsErrorToString e), [.coingecko, .publicApi])
  else
    match pub with
    | .ok r => (.ok r, [.publicApi])
    | .error e =>
      (.error (str "Failed to fetch token price for " ++ symbol ++ str ": "
        ++ jsErrorToString e), [.publicApi])

/-- `getHistoricalPrice(symbol, date)`: with a CoinGecko key perform the
CoinGecko history call, otherwise throw
`Historical price data requires CoinGecko API key`; either failure is
wrapped as `Failed to fetch historical price for <symbol> on <date>: ...`.
The boolean records whether an upstream (adapter) call was performed. -/
def getHistoricalPrice {R : Type} (hasApiKey : Bool) (symbol date : Str)
    (cg : Except Str R) : Except Str R × Bool :=
  if hasApiKey then
    match cg with
    | .ok r => (.ok r, true)
    | .error e =>
      (.error (str "Failed to fetch historical price for " ++ symbol
        ++ str " on " ++ date ++ str ": " ++ jsErrorToString e), true)
  else
    (.error (str "Failed to fetch historical price for " ++ symbol
      ++ str " on " ++ date ++ str ": "
      ++ jsErrorToString (str "Historical price data requires CoinGecko API key")),
     false)

/-- `checkHealth`: `fetch` the CoinGecko ping endpoint and return
`response.ok`; any thrown exception is caught and becomes `false`. -/
def checkHealth (ping : Except Str Bool) : Bool :=
  match ping with
  | .ok r => r
  | .error _ => false

end PolygonService

/-- The JSON shape a tool handler returns (src/tools.ts): success with a
data record — `cached : Bool` models whether the `cached: true` marker was
spread into the data at return time (`false` = marker absent) — or failure
with an error string. -/
inductive Response (α : Type) where
  | ok (data : α) (cached : Bool)
  | err (errorMsg : Str)
deriving DecidableEq

/-- The `getTokenPrice` tool handler (src/tools.ts): build the cache key
from the raw symbol and network, serve a cache hit with the `cached: true`
marker, otherwise fetch through `PolygonService.getTokenPrice`, store the
fetched record, and return it without a marker; a failure becomes an error
response and performs no cache write. -/
def getTokenPriceHandler {R : Type} (c : Cache R) (now : Nat)
    (symbol network : Str) (hasApiKey : Bool) (cg pub : Except Str R) :
    Response R × Cache R :=
  let cacheKey := CacheService.generateKey [str "token_price", symbol, network]
  match CacheService.get c now cacheKey with
  | (some v, c1) => (.ok v true, c1)
  | (none, c1) =>
    match PolygonService.getTokenPrice hasApiKey cg pub symbol with
    | (.ok r, _) => (.ok r false, CacheService.set c1 now cacheKey r none)
    | (.error e, _) => (.err (str "Failed to get token price: " ++ e), c1)

/-- The `getGasPrice` tool handler (src/tools.ts). -/
def getGasPriceHandler {R : Type} (c : Cache R) (now : Nat) (network : Str)
    (owl rpc gst esc : Except Str R) : Response R × Cache R :=
  let cacheKey := CacheService.generateKey [str "gas_price", network]
  match CacheService.get c now cacheKey with
  | (some v, c1) => (.ok v true, c1)
  | (none, c1) =>
    match GasTrackerService.getGasPrice network owl rpc gst esc with
    | (.ok g, _) => (.ok g false, CacheService.set c1 now cacheKey g none)
    | (.error e, _) => (.err (str "Failed to get gas price: " ++ e), c1)

/-- The health object built by the `healthCheck` tool handler
(src/tools.ts): both providers probed, cache occupancy, timestamp. -/
structure HealthSnapshot where
  polygon : Bool
  gasTracker : Bool
  cache : Nat
  timestamp : Nat
deriving DecidableEq

/-- The `healthCheck` tool handler (src/tools.ts): `Promise.all` of the two
`checkHealth` probes plus `cache.size()` and `Date.now()`. -/
def healthCheckHandler {α : Type} (c : Cache α) (now : Nat)
    (polygonPing gasPing : Except Str Bool) : HealthSnapshot :=
  { polygon := PolygonService.checkHealth polygonPing,
    gasTracker := GasTrackerService.checkHealth gasPing,
    cache := CacheService.size c,
    timestamp := now }

/-- Does the first string start with the second? -/
def strStartsWith : Str → Str → Bool
  | _, [] => true
  | [], _ :: _ => false
  | a :: as, b :: bs => a = b && strStartsWith as bs

/-- JS `String.prototype.includes`: does the first string contain the
second as a contiguous substring? -/
def containsStr : Str → Str → Bool
  | [], needle => needle.isEmpty
  | h :: rest, needle => strStartsWith (h :: rest) needle || containsStr rest needle

/-- The regex `^\d{4}-\d{2}-\d{2}$` of `GetHistoricalPriceInputSchema.date`
(src/schema.ts): exactly ten characters, digits in the year, month and day
positions and `-` separators. It checks the shape only, not calendar
validity. -/
def matchesDateFormat : Str → Bool
  | [y1, y2, y3, y4, s1, m1, m2, s2, d1, d2] =>
    y1.isDigit && y2.isDigit && y3.isDigit && y4.isDigit && (s1 == '-')
      && m1.isDigit && m2.isDigit && (s2 == '-') && d1.isDigit && d2.isDigit
  | _ => false

/-- Modelled from the spec: the MCP transport layer — not part of src/ —
validates every `getHistoricalPrice` request against
`GetHistoricalPriceInputSchema` (src/schema.ts, whose `date` field carries
the regex embedded as `matchesDateFormat`) before the tool handler runs, so
a request failing the schema is rejected with a validation error and never
reaches the handler or any adapter. The boolean records whether an
upstream (adapter) call was performed. -/
def getHistoricalPriceRequest {R : Type} (hasApiKey : Bool)
    (symbol date : Str) (cg : Except Str R) : Except Str R × Bool :=
  if matchesDateFormat date then
    PolygonService.getHistoricalPrice hasApiKey symbol date cg
  else
    (.error (str "Validation error: date must match YYYY-MM-DD"), false)

/-- A sample gas-price record, for concrete instantiations. -/
def gpSample : GasPrice :=
  ⟨str "polygon", 30, 35, 40, 0, str "gwei"⟩

/-- A sample token-price record, for concrete instantiations. -/
def tpSample : TokenPrice :=
  ⟨str "ETH", 2000, 2000, 0, str "coingecko", none, none, none⟩

/-- A sample historical-price record, for concrete instantiations. -/
def hpSample : HistoricalPrice :=
  ⟨str "ETH", str "2024-13-45", 2000, 2000, 0⟩

/- Association-list lemmas used by the cache theorems. -/

theorem mapGet_mapSet_self {β : Type} (m : List (Str × β)) (k : Str) (v : β) :
    mapGet (mapSet m k v) k = some v := by
  induction m with
  | nil => simp [mapSet, mapGet]
  | cons p rest ih =>
    obtain ⟨k', w⟩ := p
    by_cases h : k' = k
    · simp [mapSet, h, mapGet]
    · simp [mapSet, h, mapGet, ih]

theorem mapGet_mem {β : Type} {m : List (Str × β)} {k : Str} {v : β}
    (h : mapGet m k = some v) : (k, v) ∈ m := by
  induction m with
  | nil => simp [mapGet] at h
  | cons p rest ih =>
    obtain ⟨k', w⟩ := p
    by_cases hk : k' = k
    · simp [mapGet, hk] at h
      subst hk h
      exact List.mem_cons_self _ _
    · simp [mapGet, hk] at h
      exact List.mem_cons_of_mem _ (ih h)

theorem mem_mapSet {β : Type} {m : List (Str × β)} {k k' : Str} {v v' : β}
    (h : (k', v') ∈ mapSet m k v) : (k', v') = (k, v) ∨ (k', v') ∈ m := by
  induction m with
  | nil => simpa [mapSet] using h
  | cons p rest ih =>
    obtain ⟨k'', w⟩ := p
    by_cases hk : k'' = k
    · simp [mapSet, hk] at h
      rcases h with h | h
      · exact Or.inl (by simp [h])
      · exact Or.inr (List.mem_cons_of_mem _ h)
    · simp [mapSet, hk] at h
      rcases h with h | h
      · exact Or.inr (by simp [h])
      · rcases ih h with h' | h'
        · exact Or.inl h'
        · exact Or.inr (List.mem_cons_of_mem _ h')

theorem mapGet_none_of_not_mem_keys {β : Type} {m : List (Str × β)} {k : Str}
    (h : k ∉ m.map Prod.fst) : mapGet m k = none := by
  induction m with
  | nil => rfl
  | cons p rest ih =>
    obtain ⟨k', w⟩ := p
    simp only [List.map_cons, List.mem_cons] at h
    push_neg at h
    rw [mapGet, if_neg (fun hc => h.1 hc.symm)]
    exact ih h.2

/-- Under distinct keys, a binding reached by `mapGet` after replacing the
binding of `k` is the new binding when the key is `k`. -/
theorem mem_mapSet_eq_of_nodup {β : Type} {m : List (Str × β)} {k : Str} {v v' : β}
    (hnd : keysNodup m) (h : (k, v') ∈ mapSet m k v) : v' = v := by
  induction m with
  | nil =>
    rw [mapSet, List.mem_singleton] at h
    exact (Prod.mk.inj h).2
  | cons p rest ih =>
    obtain ⟨k', w⟩ := p
    unfold keysNodup at hnd
    rw [List.map_cons, List.nodup_cons] at hnd
    by_cases hk : k' = k
    · subst hk
      rw [mapSet, if_pos rfl, List.mem_cons] at h
      rcases h with h | h
      · exact (Prod.mk.inj h).2
      · exact absurd (List.mem_map_of_mem Prod.fst h) hnd.1
    · rw [mapSet, if_neg hk, List.mem_cons] at h
      rcases h with h | h
      · exact absurd (Prod.mk.inj h).1.symm hk
      · exact ih hnd.2 h

/-- If every binding of `k` in `m` is expired at `now`, a `get` on any
sublist of `m` (such as the survivors of a `cleanup`) returns `null`. -/
theorem get_none_of_all_expired {α : Type} {m : List (Str × CacheEntry α)}
    {m' : List (Str × CacheEntry α)} {k : Str} {now : Nat} {ttl : Nat}
    (hsub : ∀ p ∈ m', p ∈ m)
    (hexp : ∀ e, (k, e) ∈ m → now > e.expiry) :
    (CacheService.get ⟨m', ttl⟩ now k).1 = none := by
  unfold CacheService.get
  cases hget : mapGet m' k with
  | none => rfl
  | some e =>
    have hmem : (k, e) ∈ m := hsub _ (mapGet_mem hget)
    simp [hexp e hmem]

/- Substring lemmas for the error-message theorems. -/

theorem strStartsWith_append_self (n t : Str) :
    strStartsWith (n ++ t) n = true := by
  induction n with
  | nil =>
    cases t <;> rfl
  | cons a as ih =>
    simp [strStartsWith, ih]

theorem containsStr_nil_needle (hay : Str) : containsStr hay [] = true := by
  cases hay <;> simp [containsStr, strStartsWith]

theorem containsStr_prefix (n t : Str) : containsStr (n ++ t) n = true := by
  cases n with
  | nil =>
    exact containsStr_nil_needle t
  | cons a as =>
    rw [List.cons_append, containsStr]
    rw [← List.cons_append, strStartsWith_append_self]
    rfl

theorem containsStr_self (s : Str) : containsStr s s = true := by
  have h := containsStr_prefix s []
  rwa [List.append_nil] at h

theorem containsStr_append_of_right (a b n : Str)
    (h : containsStr b n = true) : containsStr (a ++ b) n = true := by
  induction a with
  | nil => exact h
  | cons x a' ih =>
    rw [List.cons_append, containsStr, ih]
    exact Bool.or_true _

/- Separator-splitting lemmas for the cache-key scheme. -/

theorem append_sep_inj {sep : Char} :
    ∀ (a b x y : Str), sep ∉ a → sep ∉ b →
      a ++ sep :: x = b ++ sep :: y → a = b ∧ x = y := by
  intro a
  induction a with
  | nil =>
    intro b x y _ hb h
    cases b with
    | nil =>
      simp at h
      exact ⟨rfl, h⟩
    | cons d b' =>
      simp at h
      exact absurd (h.1 ▸ List.mem_cons_self d b') hb
  | cons c a' ih =>
    intro b x y ha hb h
    cases b with
    | nil =>
      simp at h
      exact absurd (h.1 ▸ List.mem_cons_self c a') ha
    | cons d b' =>
      simp at h
      obtain ⟨hcd, hrest⟩ := h
      have ha' : sep ∉ a' := fun hm => ha (List.mem_cons_of_mem _ hm)
      have hb' : sep ∉ b' := fun hm => hb (List.mem_cons_of_mem _ hm)
      obtain ⟨h1, h2⟩ := ih b' x y ha' hb' hrest
      exact ⟨by rw [hcd, h1], h2⟩

theorem joinParts_nil (sep : Char) : joinParts sep [] = [] := rfl

theorem joinParts_single (sep : Char) (p : Str) : joinParts sep [p] = p := rfl

theorem joinParts_cons_cons (sep : Char) (p q : Str) (ps : List Str) :
    joinParts sep (p :: q :: ps) = p ++ sep :: joinParts sep (q :: ps) := rfl

theorem joinParts_inj {sep : Char} :
    ∀ (p1 p2 : List Str), (∀ p ∈ p1, p ≠ [] ∧ sep ∉ p) →
      (∀ p ∈ p2, p ≠ [] ∧ sep ∉ p) →
      joinParts sep p1 = joinParts sep p2 → p1 = p2 := by
  intro p1
  induction p1 with
  | nil =>
    intro p2 _ h2 h
    cases p2 with
    | nil => rfl
    | cons b bs =>
      cases bs with
      | nil =>
        exact absurd h.symm (h2 b (List.mem_cons_self b []) ).1
      | cons b2 bs' =>
        rw [joinParts_nil, joinParts_cons_cons] at h
        exact absurd h.symm (by simp)
  | cons a as ih =>
    intro p2 h1 h2 h
    cases as with
    | nil =>
      cases p2 with
      | nil =>
        rw [joinParts_single, joinParts_nil] at h
        exact absurd h (h1 a (List.mem_cons_self a [])).1
      | cons b bs =>
        cases bs with
        | nil =>
          rw [joinParts_single, joinParts_single] at h
          rw [h]
        | cons b2 bs' =>
          rw [joinParts_single, joinParts_cons_cons] at h
          have hsep : sep ∈ a := by
            rw [h]
            exact List.mem_append_right b (List.mem_cons_self sep _)
          exact absurd hsep (h1 a (List.mem_cons_self a [])).2
    | cons a2 as' =>
      cases p2 with
      | nil =>
        rw [joinParts_cons_cons, joinParts_nil] at h
        exact absurd h (by simp)
      | cons b bs =>
        cases bs with
        | nil =>
          rw [joinParts_cons_cons, joinParts_single] at h
          have hsep : sep ∈ b := by
            rw [← h]
            exact List.mem_append_right a (List.mem_cons_self sep _)
          exact absurd hsep (h2 b (List.mem_cons_self b [])).2
        | cons b2 bs' =>
          rw [joinParts_cons_cons, joinParts_cons_cons] at h
          obtain ⟨hab, hrest⟩ := append_sep_inj a b _ _
            (h1 a (List.mem_cons_self a _)).2 (h2 b (List.mem_cons_self b _)).2 h
          have htail : a2 :: as' = b2 :: bs' :=
            ih (b2 :: bs') (fun p hp => h1 p (List.mem_cons_of_mem _ hp))
              (fun p hp => h2 p (List.mem_cons_of_mem _ hp)) hrest
          rw [hab, htail]

/-- C4 — counterexample. `generateKey` joins with `':'` and is not
injective: the one-part list `["a:b"]` and the two-part list `["a", "b"]`
are distinct parameter lists producing the same key `"a:b"`. -/
theorem generateKey_collision_counterexample :
    CacheService.generateKey [str "a:b"] = CacheService.generateKey [str "a", str "b"]
    ∧ [str "a:b"] ≠ [str "a", str "b"] := by
  exact ⟨rfl, by decide⟩

/-- C4 — amended. The key builder is deterministic, and is injective on
the parameter lists whose parts are nonempty and free of the `':'`
separator: for two such lists the keys agree exactly when the lists agree.
(Unrestricted injectivity fails: a part containing `':'` can collide with a
split pair, see the counterexample.) -/
theorem generateKey_det_and_inj (p1 p2 : List Str)
    (h1 : ∀ p ∈ p1, p ≠ [] ∧ ':' ∉ p) (h2 : ∀ p ∈ p2, p ≠ [] ∧ ':' ∉ p) :
    CacheService.generateKey p1 = CacheService.generateKey p2 ↔ p1 = p2 := by
  constructor
  · exact joinParts_inj p1 p2 h1 h2
  · intro h
    rw [h]

/-- C4 — witness: the spec's own example keys.
`buildKey("price","ETH","polygon")` equals itself and differs from
`buildKey("price","ETH","ethereum")`. -/
theorem generateKey_det_and_inj_witness :
    CacheService.generateKey [str "price", str "ETH", str "polygon"]
      = CacheService.generateKey [str "price", str "ETH", str "polygon"]
    ∧ CacheService.generateKey [str "price", str "ETH", str "polygon"]
      ≠ CacheService.generateKey [str "price", str "ETH", str "ethereum"] := by
  have ha := generateKey_det_and_inj
    [str "price", str "ETH", str "polygon"] [str "price", str "ETH", str "polygon"]
    (by decide) (by decide)
  have hb := generateKey_det_and_inj
    [str "price", str "ETH", str "polygon"] [str "price", str "ETH", str "ethereum"]
    (by decide) (by decide)
  exact ⟨ha.mpr rfl, fun hc => absurd (hb.mp hc) (by decide)⟩

/-- C1 — counterexample. After `set("k", 5, customTTL = 1000)` at time 0, a
`get("k")` at time 1000 — elapsed time exactly equal to the TTL — still
returns the stored value, because expiry is checked with the strict
comparison `Date.now() > entry.expiry`. The claim states that a `get` at
elapsed ≥ ttl returns absent; at elapsed = ttl the code returns the value. -/
theorem cache_ttl_boundary_counterexample :
    (CacheService.get (CacheService.set (⟨[], 30000⟩ : Cache Nat) 0 (str "k") 5
      (some 1000)) 1000 (str "k")).1 = some 5 ∧ 1000 ≥ 1000 := by
  exact ⟨rfl, le_refl 1000⟩

/-- C1 — amended. For every key, value and nonzero ttl, after
`set(key, value, ttl)` at time `now0` on a cache whose map has distinct
keys: a `get(key)` at `now1` with elapsed time `now1 - now0 ≤ ttl` returns
the stored value, and a `get(key)` with elapsed time `> ttl` returns absent
(`null`) — also when a `cleanup` pass ran at an arbitrary time `tc` in
between, so an entry strictly past its expiry is never returned whether or
not it has been swept. -/
theorem cache_ttl_expiry (α : Type) (c : Cache α) (now0 now1 tc t : Nat)
    (key : Str) (v : α) (hnd : keysNodup c.entries) (ht : t ≠ 0) :
    ((now1 - now0 ≤ t ∧ now0 ≤ now1) →
        (CacheService.get (CacheService.set c now0 key v (some t)) now1 key).1
          = some v)
    ∧ (now1 - now0 > t →
        (CacheService.get (CacheService.set c now0 key v (some t)) now1 key).1
          = none
        ∧ (CacheService.get
            (CacheService.cleanup (CacheService.set c now0 key v (some t)) tc)
            now1 key).1 = none) := by
  constructor
  · rintro ⟨h1, h2⟩
    have hle : ¬ (now1 > now0 + t) := by omega
    simp [CacheService.set, CacheService.get, mapGet_mapSet_self, ht, hle]
  · intro h
    have hgt : now1 > now0 + t := by omega
    constructor
    · simp [CacheService.set, CacheService.get, mapGet_mapSet_self, ht, hgt]
    · simp only [CacheService.set, CacheService.cleanup, if_neg ht]
      apply get_none_of_all_expired
        (m := mapSet c.entries key ⟨v, now0 + t⟩)
      · intro p hp
        exact List.mem_of_mem_filter hp
      · intro e he
        have hev : e = ⟨v, now0 + t⟩ := mem_mapSet_eq_of_nodup hnd he
        rw [hev]
        exact hgt

/-- C1 — witness for the amended theorem at concrete inputs: `set` at 0
with ttl 1000; reads at 500 (value), at 1500 (absent), and at 1500 after a
cleanup at 1200 (absent). -/
theorem cache_ttl_expiry_witness :
    (CacheService.get (CacheService.set (⟨[], 30000⟩ : Cache Nat) 0 (str "k") 5
       (some 1000)) 500 (str "k")).1 = some 5
    ∧ (CacheService.get (CacheService.set (⟨[], 30000⟩ : Cache Nat) 0 (str "k") 5
       (some 1000)) 1500 (str "k")).1 = none
    ∧ (CacheService.get
        (CacheService.cleanup
          (CacheService.set (⟨[], 30000⟩ : Cache Nat) 0 (str "k") 5 (some 1000))
          1200) 1500 (str "k")).1 = none := by
  have h1 := cache_ttl_expiry Nat ⟨[], 30000⟩ 0 500 1200 1000 (str "k") 5
    (by simp [keysNodup]) (by decide)
  have h2 := cache_ttl_expiry Nat ⟨[], 30000⟩ 0 1500 1200 1000 (str "k") 5
    (by simp [keysNodup]) (by decide)
  exact ⟨h1.1 ⟨by decide, by decide⟩, (h2.2 (by decide)).1, (h2.2 (by decide)).2⟩

/-- C10 — confirmed. `set(key, value, 0)`: the truthiness of
`customTTL || this.ttl` sends the explicit custom TTL `0` to the cache's
default TTL, so the entry is stored with expiry `now + default ttl` (not
immediately expired), and a `get(key)` at the same instant returns the
value. -/
theorem cache_set_zero_ttl_uses_default (α : Type) (c : Cache α) (now : Nat)
    (key : Str) (v : α) :
    (CacheService.get (CacheService.set c now key v (some 0)) now key).1 = some v
    ∧ mapGet (CacheService.set c now key v (some 0)).entries key
        = some ⟨v, now + c.ttl⟩ := by
  have h2 : mapGet (CacheService.set c now key v (some 0)).entries key
      = some ⟨v, now + c.ttl⟩ := by
    simp [CacheService.set, mapGet_mapSet_self]
  refine ⟨?_, h2⟩
  simp [CacheService.get, h2]

/-- C2 — confirmed. In both cited fallback chains the adapters are invoked
strictly in configured order and the chain short-circuits: when the first
adapter succeeds its result is returned and only it was invoked; the second
adapter is invoked only after the first has failed, and a success of the
second is returned. The invocation trace (second component) lists the
adapters actually started, in order. -/
theorem fallback_sequential (R : Type) (owl rpc cg pub : Except Str R)
    (symbol : Str) :
    (∀ g, owl = .ok g →
        GasTrackerService.getPolygonGasPrice owl rpc
          = (.ok g, [GasAdapter.owlracle]))
    ∧ (∀ e g, owl = .error e → rpc = .ok g →
        GasTrackerService.getPolygonGasPrice owl rpc
          = (.ok g, [GasAdapter.owlracle, GasAdapter.rpc]))
    ∧ (∀ r, cg = .ok r →
        PolygonService.getTokenPrice true cg pub symbol
          = (.ok r, [PriceAdapter.coingecko]))
    ∧ (∀ e r, cg = .error e → pub = .ok r →
        PolygonService.getTokenPrice true cg pub symbol
          = (.ok r, [PriceAdapter.coingecko, PriceAdapter.publicApi])) := by
  refine ⟨?_, ?_, ?_, ?_⟩ <;> intros <;> subst_vars <;> rfl

/-- C2 — witness: Owlracle succeeding short-circuits the polygon gas chain;
CoinGecko failing followed by the public endpoint succeeding returns the
public result with both adapters attempted in order. -/
theorem fallback_sequential_witness :
    GasTrackerService.getPolygonGasPrice (Except.ok gpSample)
        (Except.error (str "RPC error: 500"))
      = (.ok gpSample, [GasAdapter.owlracle])
    ∧ PolygonService.getTokenPrice true
        (Except.error (str "CoinGecko API error: 500"))
        (Except.ok tpSample) (str "ETH")
      = (.ok tpSample, [PriceAdapter.coingecko, PriceAdapter.publicApi]) := by
  have h1 := fallback_sequential GasPrice (Except.ok gpSample)
    (Except.error (str "RPC error: 500")) (Except.ok gpSample)
    (Except.ok gpSample) (str "ETH")
  have h2 := fallback_sequential TokenPrice (Except.ok tpSample)
    (Except.ok tpSample) (Except.error (str "CoinGecko API error: 500"))
    (Except.ok tpSample) (str "ETH")
  exact ⟨h1.1 gpSample rfl, h2.2.2.2 (str "CoinGecko API error: 500") tpSample rfl rfl⟩

/-- C3 — counterexample. With both polygon gas adapters failing, both
providers are attempted, but the error the resolution fails with carries
only the last adapter's cause: the first provider's name, Owlracle (whose
failure message was `Owlracle API error: 500`), appears nowhere in the
returned error, contradicting "names every attempted provider (not just
the last one)". -/
theorem all_fail_counterexample :
    (GasTrackerService.getGasPrice (str "polygon")
        (Except.error (α := GasPrice) (str "Owlracle API error: 500"))
        (Except.error (str "RPC error: 500"))
        (Except.error (str "x")) (Except.error (str "x"))).2
      = [GasAdapter.owlracle, GasAdapter.rpc]
    ∧ (getGasPriceHandler (⟨[], 30000⟩ : Cache GasPrice) 0 (str "polygon")
        (Except.error (str "Owlracle API error: 500"))
        (Except.error (str "RPC error: 500"))
        (Except.error (str "x")) (Except.error (str "x"))).1
      = Response.err (str "Failed to get gas price: Failed to fetch gas price for polygon: Error: Failed to get Polygon gas price: Error: RPC error: 500")
    ∧ containsStr
        (str "Failed to get gas price: Failed to fetch gas price for polygon: Error: Failed to get Polygon gas price: Error: RPC error: 500")
        (str "Owlracle") = false
    ∧ containsStr
        (str "Failed to get gas price: Failed to fetch gas price for polygon: Error: Failed to get Polygon gas price: Error: RPC error: 500")
        (str "owlracle") = false := by
  refine ⟨rfl, rfl, ?_, ?_⟩ <;> decide

/-- C3 — amended. When every adapter of the polygon gas chain fails, the
resolution fails with an error response that names the category target
(the network `polygon`) and carries the last attempted adapter's cause;
the first adapter's failure is only logged, not aggregated into the error.
On a cache miss the cache is returned unchanged — the failed resolution
writes nothing. -/
theorem all_fail_amended (R : Type) (c : Cache R) (now : Nat) (e1 e2 : Str)
    (gst esc : Except Str R)
    (hmiss : mapGet c.entries
      (CacheService.generateKey [str "gas_price", str "polygon"]) = none) :
    getGasPriceHandler c now (str "polygon")
        (Except.error e1) (Except.error e2) gst esc
      = (Response.err (str "Failed to get gas price: "
          ++ (str "Failed to fetch gas price for " ++ str "polygon" ++ str ": "
            ++ jsErrorToString
              (str "Failed to get Polygon gas price: " ++ jsErrorToString e2))),
         c)
    ∧ (GasTrackerService.getGasPrice (str "polygon")
        (Except.error (α := R) e1) (Except.error e2) gst esc).2
      = [GasAdapter.owlracle, GasAdapter.rpc]
    ∧ containsStr (str "Failed to get gas price: "
        ++ (str "Failed to fetch gas price for " ++ str "polygon" ++ str ": "
          ++ jsErrorToString
            (str "Failed to get Polygon gas price: " ++ jsErrorToString e2)))
        (str "polygon") = true
    ∧ containsStr (str "Failed to get gas price: "
        ++ (str "Failed to fetch gas price for " ++ str "polygon" ++ str ": "
          ++ jsErrorToString
            (str "Failed to get Polygon gas price: " ++ jsErrorToString e2)))
        e2 = true := by
  have hkey : CacheService.get c now
      (CacheService.generateKey [str "gas_price", str "polygon"]) = (none, c) := by
    unfold CacheService.get
    rw [hmiss]
  refine ⟨?_, rfl, ?_, ?_⟩
  · simp only [getGasPriceHandler]
    rw [hkey]
    rfl
  · simp only [List.append_assoc]
    apply containsStr_append_of_right
    apply containsStr_append_of_right
    exact containsStr_prefix (str "polygon") _
  · simp only [jsErrorToString, List.append_assoc]
    repeat apply containsStr_append_of_right
    exact containsStr_self e2

/-- C3 — witness for the amended theorem at concrete failing adapters on
the empty cache. -/
theorem all_fail_amended_witness :
    getGasPriceHandler (⟨[], 30000⟩ : Cache GasPrice) 0 (str "polygon")
        (Except.error (str "Owlracle API error: 500"))
        (Except.error (str "RPC error: 500"))
        (Except.error (str "x")) (Except.error (str "x"))
      = (Response.err (str "Failed to get gas price: "
          ++ (str "Failed to fetch gas price for " ++ str "polygon" ++ str ": "
            ++ jsErrorToString (str "Failed to get Polygon gas price: "
              ++ jsErrorToString (str "RPC error: 500")))),
         ⟨[], 30000⟩)
    ∧ containsStr (str "Failed to get gas price: "
        ++ (str "Failed to fetch gas price for " ++ str "polygon" ++ str ": "
          ++ jsErrorToString (str "Failed to get Polygon gas price: "
            ++ jsErrorToString (str "RPC error: 500"))))
        (str "RPC error: 500") = true := by
  have h := all_fail_amended GasPrice ⟨[], 30000⟩ 0
    (str "Owlracle API error: 500") (str "RPC error: 500")
    (Except.error (str "x")) (Except.error (str "x")) rfl
  exact ⟨h.1, h.2.2.2⟩

/-- C5 — counterexample. Two token-price requests differing only in the
case of the symbol (`eth` vs `ETH`) map to the same provider identifier
inside the adapters (`getCoinGeckoId` upper-cases before its lookup), yet
the tool handler builds the cache key from the raw symbol, so the two
requests get distinct cache keys — they are not the same logical request,
contradicting the claim. -/
theorem normalization_counterexample :
    PolygonService.getCoinGeckoId (str "eth")
      = PolygonService.getCoinGeckoId (str "ETH")
    ∧ CacheService.generateKey [str "token_price", str "eth", str "polygon"]
      ≠ CacheService.generateKey [str "token_price", str "ETH", str "polygon"] := by
  exact ⟨rfl, by decide⟩

/-- C5 — amended. Symbol normalization is performed inside each adapter
(every adapter calls `getCoinGeckoId`, which case-folds before looking up
the provider identifier), not once before the chain; it is case-insensitive
where applied — symbols equal up to case yield the same provider id — but
the cache key is built from the raw symbol, so requests differing only in
symbol case produce distinct cache keys and are distinct cache entries. -/
theorem normalization_amended (s t network : Str)
    (h : PolygonService.toUpper s = PolygonService.toUpper t) :
    PolygonService.getCoinGeckoId s = PolygonService.getCoinGeckoId t
    ∧ (s ≠ t → s ≠ [] → t ≠ [] → ':' ∉ s → ':' ∉ t → ':' ∉ network →
        network ≠ [] →
        CacheService.generateKey [str "token_price", s, network]
          ≠ CacheService.generateKey [str "token_price", t, network]) := by
  constructor
  · simp only [PolygonService.getCoinGeckoId]
    rw [h]
  · intro hst hs ht hcs hct hcn hn hk
    apply hst
    have hparts : ∀ p ∈ [str "token_price", s, network], p ≠ [] ∧ ':' ∉ p := by
      intro p hp
      simp only [List.mem_cons, List.not_mem_nil, or_false] at hp
      rcases hp with rfl | rfl | rfl
      · exact ⟨by decide, by decide⟩
      · exact ⟨hs, hcs⟩
      · exact ⟨hn, hcn⟩
    have hparts' : ∀ p ∈ [str "token_price", t, network], p ≠ [] ∧ ':' ∉ p := by
      intro p hp
      simp only [List.mem_cons, List.not_mem_nil, or_false] at hp
      rcases hp with rfl | rfl | rfl
      · exact ⟨by decide, by decide⟩
      · exact ⟨ht, hct⟩
      · exact ⟨hn, hcn⟩
    have hlist := joinParts_inj _ _ hparts hparts' hk
    simpa using hlist

/-- C5 — witness for the amended theorem at the case-variant pair
`eth` / `ETH` on the polygon network. -/
theorem normalization_amended_witness :
    PolygonService.getCoinGeckoId (str "eth")
      = PolygonService.getCoinGeckoId (str "ETH")
    ∧ CacheService.generateKey [str "token_price", str "eth", str "polygon"]
      ≠ CacheService.generateKey [str "token_price", str "ETH", str "polygon"]
    ∧ PolygonService.getCoinGeckoId (str "eth") = str "ethereum" := by
  have h := normalization_amended (str "eth") (str "ETH") (str "polygon")
    (by decide)
  exact ⟨h.1,
    h.2 (by decide) (by decide) (by decide) (by decide) (by decide)
      (by decide) (by decide),
    by decide⟩

/-- C6 — confirmed. The multi-network aggregation always returns a mapping
(the embedding is total: every per-target failure is swallowed), and for
every combination of per-target outcomes the mapping holds an entry for a
network exactly when that network's resolution succeeded — with exactly the
resolved record — and holds no other keys. -/
theorem multi_network_partial (R : Type) (owl rpc gst esc : Except Str R) :
    (∀ g, mapGet (GasTrackerService.getMultiNetworkGasPrice owl rpc gst esc)
        (str "polygon") = some g
      ↔ (GasTrackerService.getGasPrice (str "polygon") owl rpc gst esc).1
          = .ok g)
    ∧ (∀ g, mapGet (GasTrackerService.getMultiNetworkGasPrice owl rpc gst esc)
        (str "ethereum") = some g
      ↔ (GasTrackerService.getGasPrice (str "ethereum") owl rpc gst esc).1
          = .ok g)
    ∧ (∀ k, k ≠ str "polygon" → k ≠ str "ethereum" →
        mapGet (GasTrackerService.getMultiNetworkGasPrice owl rpc gst esc) k
          = none) := by
  have hep : ¬ (str "ethereum" = str "polygon") := by decide
  have hpe : ¬ (str "polygon" = str "ethereum") := by decide
  unfold GasTrackerService.getMultiNetworkGasPrice
  simp only [List.foldl]
  cases hp : (GasTrackerService.getGasPrice (str "polygon") owl rpc gst esc).1 with
  | error ep =>
    cases he : (GasTrackerService.getGasPrice (str "ethereum") owl rpc gst esc).1 with
    | error ee =>
      refine ⟨?_, ?_, ?_⟩
      · intro g
        simp [mapGet]
      · intro g
        simp [mapGet]
      · intro k _ _
        simp [mapGet]
    | ok ge =>
      refine ⟨?_, ?_, ?_⟩
      · intro g
        simp [mapGet, mapSet, hep]
      · intro g
        simp [mapGet, mapSet]
      · intro k hk1 hk2
        have h2 : ¬ (str "ethereum" = k) := fun h => hk2 h.symm
        simp [mapGet, mapSet, h2]
  | ok gp =>
    cases he : (GasTrackerService.getGasPrice (str "ethereum") owl rpc gst esc).1 with
    | error ee =>
      refine ⟨?_, ?_, ?_⟩
      · intro g
        simp [mapGet, mapSet]
      · intro g
        simp [mapGet, mapSet, hpe]
      · intro k hk1 hk2
        have h1 : ¬ (str "polygon" = k) := fun h => hk1 h.symm
        simp [mapGet, mapSet, h1]
    | ok ge =>
      refine ⟨?_, ?_, ?_⟩
      · intro g
        simp [mapGet, mapSet, hep, hpe]
      · intro g
        simp [mapGet, mapSet, hep, hpe]
      · intro k hk1 hk2
        have h1 : ¬ (str "polygon" = k) := fun h => hk1 h.symm
        have h2 : ¬ (str "ethereum" = k) := fun h => hk2 h.symm
        simp [mapGet, mapSet, hep, hpe, h1, h2]

/-- C6 — witness: polygon succeeding (via Owlracle) while every ethereum
adapter fails yields a mapping containing polygon and not ethereum. -/
theorem multi_network_partial_witness :
    mapGet (GasTrackerService.getMultiNetworkGasPrice (Except.ok gpSample)
      (Except.error (str "e")) (Except.error (str "e")) (Except.error (str "e")))
      (str "polygon") = some gpSample
    ∧ mapGet (GasTrackerService.getMultiNetworkGasPrice (Except.ok gpSample)
      (Except.error (str "e")) (Except.error (str "e")) (Except.error (str "e")))
      (str "ethereum") = none := by
  have h := multi_network_partial GasPrice (Except.ok gpSample)
    (Except.error (str "e")) (Except.error (str "e")) (Except.error (str "e"))
  refine ⟨(h.1 gpSample).mpr rfl, ?_⟩
  cases hm : mapGet (GasTrackerService.getMultiNetworkGasPrice (Except.ok gpSample)
      (Except.error (str "e")) (Except.error (str "e")) (Except.error (str "e")))
      (str "ethereum") with
  | none => rfl
  | some g =>
    have hok := (h.2.1 g).mp hm
    have hbad : (GasTrackerService.getGasPrice (str "ethereum")
        (Except.ok gpSample) (Except.error (str "e")) (Except.error (str "e"))
        (Except.error (str "e"))).1
        = Except.error (str "Failed to fetch gas price for ethereum: Error: e") := by
      rfl
    rw [hbad] at hok
    exact absurd hok (by simp)

/-- C7 — confirmed. A resolution answered from the cache returns the stored
record with the `cached: true` marker attached at return time; a fresh
success stores exactly the fetched record — a plain `TokenPrice`-shaped
value carrying no marker — and returns it with no marker; a failure is an
error response that writes nothing. The three outcomes are mutually
distinguishable `Response` values. -/
theorem cached_marker (R : Type) (c : Cache R) (now : Nat)
    (symbol network : Str) (hasApiKey : Bool) (cg pub : Except Str R) :
    (∀ v c1, CacheService.get c now
        (CacheService.generateKey [str "token_price", symbol, network])
        = (some v, c1) →
      getTokenPriceHandler c now symbol network hasApiKey cg pub
        = (Response.ok v true, c1))
    ∧ (∀ c1 r, CacheService.get c now
        (CacheService.generateKey [str "token_price", symbol, network])
        = (none, c1) →
      (PolygonService.getTokenPrice hasApiKey cg pub symbol).1 = .ok r →
      getTokenPriceHandler c now symbol network hasApiKey cg pub
        = (Response.ok r false,
           CacheService.set c1 now
             (CacheService.generateKey [str "token_price", symbol, network])
             r none))
    ∧ (∀ c1 e, CacheService.get c now
        (CacheService.generateKey [str "token_price", symbol, network])
        = (none, c1) →
      (PolygonService.getTokenPrice hasApiKey cg pub symbol).1 = .error e →
      getTokenPriceHandler c now symbol network hasApiKey cg pub
        = (Response.err (str "Failed to get token price: " ++ e), c1))
    ∧ (∀ (v w : R) (m : Str) (b : Bool),
        Response.ok v true ≠ Response.ok w false
        ∧ Response.ok v b ≠ Response.err m) := by
  refine ⟨?_, ?_, ?_, ?_⟩
  · intro v c1 hget
    simp only [getTokenPriceHandler]
    rw [hget]
  · intro c1 r hget hfetch
    rcases hfe : PolygonService.getTokenPrice hasApiKey cg pub symbol with ⟨res, tr⟩
    rw [hfe] at hfetch
    simp only at hfetch
    subst hfetch
    simp only [getTokenPriceHandler]
    rw [hget, hfe]
  · intro c1 e hget hfetch
    rcases hfe : PolygonService.getTokenPrice hasApiKey cg pub symbol with ⟨res, tr⟩
    rw [hfe] at hfetch
    simp only at hfetch
    subst hfetch
    simp only [getTokenPriceHandler]
    rw [hget, hfe]
  · intro v w m b
    exact ⟨by simp, by simp⟩

/-- C7 — witness: on the empty cache a fresh fetch returns the record
without a marker and stores exactly that record; the marker-bearing and the
marker-free responses differ. -/
theorem cached_marker_witness :
    getTokenPriceHandler (⟨[], 30000⟩ : Cache TokenPrice) 0
        (str "ETH") (str "polygon") true (Except.ok tpSample)
        (Except.error (str "x"))
      = (Response.ok tpSample false,
         CacheService.set ⟨[], 30000⟩ 0
           (CacheService.generateKey [str "token_price", str "ETH", str "polygon"])
           tpSample none)
    ∧ Response.ok tpSample true ≠ Response.ok tpSample false := by
  have h := cached_marker TokenPrice ⟨[], 30000⟩ 0 (str "ETH") (str "polygon")
    true (Except.ok tpSample) (Except.error (str "x"))
  exact ⟨h.2.1 ⟨[], 30000⟩ tpSample rfl rfl,
    (h.2.2.2 tpSample tpSample (str "x") true).1⟩

/-- C8 — confirmed. `checkHealth` is a total boolean function of the probe
outcome — an exception in the probe is caught and becomes `false`, nothing
propagates — and each field of the health snapshot depends only on its own
provider's probe, so one probe throwing leaves the other provider's
reported status untouched. -/
theorem health_isolation (α : Type) (c : Cache α) (now : Nat)
    (p g : Except Str Bool) :
    (healthCheckHandler c now p g).polygon = PolygonService.checkHealth p
    ∧ (healthCheckHandler c now p g).gasTracker = GasTrackerService.checkHealth g
    ∧ (∀ e, p = .error e → PolygonService.checkHealth p = false)
    ∧ (∀ e, g = .error e → GasTrackerService.checkHealth g = false)
    ∧ (∀ e, p = .error e →
        (healthCheckHandler c now p g).gasTracker
          = GasTrackerService.checkHealth g) := by
  refine ⟨rfl, rfl, ?_, ?_, ?_⟩ <;> intros <;> subst_vars <;> rfl

/-- C8 — witness: the polygon probe throwing yields `polygon = false` while
the gas-tracker status is still reported truthfully. -/
theorem health_isolation_witness :
    (healthCheckHandler (⟨[], 30000⟩ : Cache Nat) 0
      (Except.error (str "boom")) (Except.ok true)).polygon = false
    ∧ (healthCheckHandler (⟨[], 30000⟩ : Cache Nat) 0
      (Except.error (str "boom")) (Except.ok true)).gasTracker = true := by
  have h := health_isolation Nat ⟨[], 30000⟩ 0
    (Except.error (str "boom")) (Except.ok true)
  exact ⟨h.1.trans (h.2.2.1 (str "boom") rfl), h.2.1.trans rfl⟩

/-- C9 — counterexample. The schema's date check is the shape-only regex
`^\d{4}-\d{2}-\d{2}$`: the string `2024-13-45` is not a valid calendar
date, yet it matches the pattern, passes validation, and the resolution
performs an upstream adapter call for it (second component `true`),
contradicting "no I/O is performed for such a request". -/
theorem date_validation_counterexample :
    matchesDateFormat (str "2024-13-45") = true
    ∧ (getHistoricalPriceRequest true (str "ETH") (str "2024-13-45")
        (Except.ok hpSample)).2 = true := by
  exact ⟨rfl, rfl⟩

/-- C9 — amended. A date failing the `^\d{4}-\d{2}-\d{2}$` shape check is
rejected with a validation error before the handler runs: no adapter is
invoked and no I/O happens. Calendar validity is not checked — a
pattern-valid but impossible date reaches the adapter (see the
counterexample). -/
theorem date_validation_amended (R : Type) (hasApiKey : Bool)
    (symbol date : Str) (cg : Except Str R)
    (h : matchesDateFormat date = false) :
    getHistoricalPriceRequest hasApiKey symbol date cg
      = (.error (str "Validation error: date must match YYYY-MM-DD"), false) := by
  simp [getHistoricalPriceRequest, h]

/-- C9 — witness: the malformed date `garbage` fails the shape check and is
rejected with no adapter call. -/
theorem date_validation_amended_witness :
    getHistoricalPriceRequest true (str "ETH") (str "garbage")
        (Except.ok hpSample)
      = (.error (str "Validation error: date must match YYYY-MM-DD"), false) := by
  exact date_validation_amended HistoricalPrice true (str "ETH") (str "garbage")
    (Except.ok hpSample) rfl

end Oraclix
